import Mathlib

/-!
Verification of the `SSHService` class of `src/ssh.js` (repository
Voidbrew/nodejs-utils).  Strings are modelled as `List Char`; the
asynchronous event-driven parts (handshake, command stream, close) are
modelled by making the externally produced events explicit parameters of
the corresponding operations, and side effects (logger calls, transport
calls) are recorded in an explicit effect list.
-/

namespace NodeSSH

/-- The single-quote character (code point 39). -/
def squote : Char := Char.ofNat 39

/-- The backslash character (code point 92). -/
def bslash : Char := Char.ofNat 92

/-- The space character (code point 32). -/
def spaceChar : Char := Char.ofNat 32

/-- The NUL character (code point 0). -/
def nulChar : Char := Char.ofNat 0

/-- Embedding of `arg.replace(/'/g, "'\\''")` from `escapeShellArg`
(src/ssh.js line 54): scan the characters left to right and replace every
single quote by the four characters quote, backslash, quote, quote. -/
def replaceQuotes : List Char → List Char
  | [] => []
  | c :: rest =>
      if c = squote then squote :: bslash :: squote :: squote :: replaceQuotes rest
      else c :: replaceQuotes rest

/-- Embedding of `escapeShellArg` (src/ssh.js lines 53-55): the replaced
string wrapped in one leading and one trailing single quote. -/
def escapeShellArg (arg : List Char) : List Char :=
  squote :: (replaceQuotes arg ++ [squote])

/-- Spec-side description of the per-character replacement: a single quote
becomes the four-character sequence quote, backslash, quote, quote and every
other character stays itself. -/
def quoteRepl (c : Char) : List Char :=
  if c = squote then [squote, bslash, squote, squote] else [c]

/-- Scanner mode for POSIX single-quote token parsing: outside any quotes,
inside a single-quoted span, or right after an unquoted backslash. -/
inductive QMode
  | plain
  | quoted
  | escaped

/-- Reference definition of POSIX shell single-quote token parsing, reading
one word.  Outside quotes a single quote opens a span, a backslash makes the
next character literal, and unquoted whitespace (or exhausting the input
inside a span or after a backslash) means the input is not one well-formed
token (`none`).  Inside quotes every character except the closing quote is
literal. -/
def posixReadWord : QMode → List Char → Option (List Char)
  | .plain, [] => some []
  | .quoted, [] => none
  | .escaped, [] => none
  | .escaped, d :: cs => (posixReadWord .plain cs).map (fun w => d :: w)
  | .plain, c :: cs =>
      if c = squote then posixReadWord .quoted cs
      else if c = bslash then posixReadWord .escaped cs
      else if c = spaceChar ∨ c = Char.ofNat 9 ∨ c = Char.ofNat 10 then none
      else (posixReadWord .plain cs).map (fun w => c :: w)
  | .quoted, c :: cs =>
      if c = squote then posixReadWord .plain cs
      else (posixReadWord .quoted cs).map (fun w => c :: w)

theorem replaceQuotes_eq_flatten_map (a : List Char) :
    replaceQuotes a = (a.map quoteRepl).flatten := by
  induction a with
  | nil => rfl
  | cons c rest ih =>
      by_cases hc : c = squote
      · simp [replaceQuotes, quoteRepl, hc, ih]
      · simp [replaceQuotes, quoteRepl, hc, ih]

/-- C1.  `escapeShellArg a` is a single quote, then `a` with every single
quote replaced by the four-character sequence quote backslash quote quote,
then a closing single quote. -/
theorem claim_C1_escapeShellArg_shape (a : List Char) :
    escapeShellArg a = [squote] ++ (a.map quoteRepl).flatten ++ [squote] := by
  simp [escapeShellArg, replaceQuotes_eq_flatten_map]

theorem posixReadWord_inside (a : List Char) :
    posixReadWord .quoted (replaceQuotes a ++ [squote]) = some a := by
  induction a with
  | nil =>
      simp [replaceQuotes, posixReadWord]
  | cons c rest ih =>
      by_cases hc : c = squote
      · subst hc
        have hbs : ¬ (bslash = squote) := by decide
        simp [replaceQuotes, posixReadWord, hbs, ih]
      · simp [replaceQuotes, posixReadWord, hc, ih]

/-- C2.  For every argument without a NUL character, parsing
`escapeShellArg a` as a single POSIX shell token recovers exactly `a`. -/
theorem claim_C2_roundtrip (a : List Char) (hnul : nulChar ∉ a) :
    posixReadWord .plain (escapeShellArg a) = some a := by
  simp [escapeShellArg, posixReadWord, posixReadWord_inside]

/-- Witness for C2 at the concrete argument `it's`. -/
theorem claim_C2_roundtrip_witness :
    posixReadWord .plain
        (escapeShellArg [Char.ofNat 105, Char.ofNat 116, Char.ofNat 39, Char.ofNat 115])
      = some [Char.ofNat 105, Char.ofNat 116, Char.ofNat 39, Char.ofNat 115] :=
  claim_C2_roundtrip [Char.ofNat 105, Char.ofNat 116, Char.ofNat 39, Char.ofNat 115]
    (by decide)

/-- The mutable state of an `SSHService` instance (src/ssh.js constructor,
lines 57-68).  The four connection fields are set once at construction and
never reassigned; `status` is the connected flag; `ssh` holds the current
`ssh2.Client` instance (`none` models `null`), identified by a number drawn
from the ghost counter `nextClientId` so that distinct `new ssh2.Client()`
allocations are distinguishable. -/
structure SSHService where
  ip : List Char
  port : Nat
  username : List Char
  password : List Char
  status : Bool
  ssh : Option Nat
  nextClientId : Nat

/-- Embedding of `new SSHService(ip, port, username, password)`. -/
def initService (ip : List Char) (port : Nat) (username password : List Char) :
    SSHService :=
  { ip := ip, port := port, username := username, password := password,
    status := false, ssh := none, nextClientId := 0 }

/-- The validation test of `connect` (src/ssh.js line 78):
`!this.ip || !this.port || !this.username || !this.password`.  JavaScript
truthiness on a string field is emptiness; on the numeric port it is
comparison with zero. -/
def fieldsMissing (s : SSHService) : Bool :=
  s.ip.isEmpty || s.port == 0 || s.username.isEmpty || s.password.isEmpty

/-- Errors that can be raised inside the session's methods. -/
inductive Err
  | configError
  | handshakeFailed (e : Nat)
  | openFailed (e : Nat)
  | typeError

/-- Outcome of the handshake attempted by `test()`: the transport emits
exactly one of the events ready or error. -/
inductive HandshakeOutcome
  | ready
  | error (e : Nat)

/-- Observable side effects of the session's methods: logger calls and
calls into the transport client (tagged with the client's identity). -/
inductive Effect
  | logDebug
  | logCritical
  | newClient (id : Nat)
  | transportConnect (id : Nat)
  | channelExec (id : Nat) (command : List Char)
  | transportEnd (id : Nat)

/-- Result of a `connect()` call: the session state afterwards, the effects
emitted, and the error escaping to the caller, if any. -/
structure ConnectResult where
  state : SSHService
  effects : List Effect
  thrown : Option Err

/-- The `try` block of `connect` (src/ssh.js lines 76-88): validate the four
fields, then assign `this.ssh = new ssh2.Client()`, then `await this.test()`;
on ready, log at debug level and set `this.status = true`.  A thrown or
rejected error is reported in `thrown` together with the state at the point
of the throw (the `ssh` assignment is not rolled back). -/
def connectTry (s : SSHService) (h : HandshakeOutcome) : ConnectResult :=
  if fieldsMissing s then
    { state := s, effects := [], thrown := some Err.configError }
  else
    let id := s.nextClientId
    let s1 : SSHService := { s with ssh := some id, nextClientId := id + 1 }
    match h with
    | .ready =>
        { state := { s1 with status := true },
          effects := [Effect.newClient id, Effect.transportConnect id, Effect.logDebug],
          thrown := none }
    | .error e =>
        { state := s1,
          effects := [Effect.newClient id, Effect.transportConnect id],
          thrown := some (Err.handshakeFailed e) }

/-- Embedding of `connect()` (src/ssh.js lines 75-92): the try block wrapped
in the catch handler, which logs at critical level and swallows the error. -/
def connect (s : SSHService) (h : HandshakeOutcome) : ConnectResult :=
  let r := connectTry s h
  match r.thrown with
  | some _ => { state := r.state, effects := r.effects ++ [Effect.logCritical], thrown := none }
  | none => r

/-- Whether the transport emits its end event during `close()`. -/
inductive CloseOutcome
  | endFired
  | noEvent

/-- Result of a `close()` call: the state afterwards, the effects emitted,
and the settlement of the returned promise (`none` = still pending,
`some (Except.ok b)` = resolved with `b`, `some (Except.error e)` =
rejected with `e`). -/
structure CloseResult where
  state : SSHService
  effects : List Effect
  result : Option (Except Err Bool)

/-- Embedding of `close()` (src/ssh.js lines 153-160): subscribe to the
transport's end event and call `this.ssh.end()`; when end fires, set
`this.status = false` and resolve `true`.  On a `null` transport the
member access throws a TypeError, rejecting the returned promise. -/
def close (s : SSHService) (o : CloseOutcome) : CloseResult :=
  match s.ssh with
  | none => { state := s, effects := [], result := some (Except.error Err.typeError) }
  | some id =>
      match o with
      | .endFired =>
          { state := { s with status := false },
            effects := [Effect.transportEnd id],
            result := some (Except.ok true) }
      | .noEvent =>
          { state := s, effects := [Effect.transportEnd id], result := none }

/-- One event observed on the command sub-channel opened by `rawExec`:
a stdout data chunk, a stderr data chunk, or the terminal close event
carrying an optional exit code and an optional signal name. -/
inductive StreamEvent
  | outData (chunk : List Char)
  | errData (chunk : List Char)
  | closeEv (code : Option Nat) (signal : Option (List Char))

/-- The object `{code, signal, data}` with which `rawExec` resolves
(src/ssh.js line 130). -/
structure ExecResult where
  code : Option Nat
  signal : Option (List Char)
  data : List Char

/-- The stream listeners of `rawExec` (src/ssh.js lines 125-131): every
stdout or stderr chunk is appended to the accumulator `data`, and the first
close event resolves `{code, signal, data}`.  `none` means the promise
never settles (no close event ever fires). -/
def runStream (acc : List Char) : List StreamEvent → Option ExecResult
  | [] => none
  | .outData chunk :: rest => runStream (acc ++ chunk) rest
  | .errData chunk :: rest => runStream (acc ++ chunk) rest
  | .closeEv code signal :: _ =>
      some { code := code, signal := signal, data := acc }

/-- Outcome of `this.ssh.exec(command, ...)`: either the callback receives
an open error, or a sub-channel opens and emits the given events. -/
inductive ExecOutcome
  | openError (e : Nat)
  | opened (events : List StreamEvent)

/-- Embedding of `rawExec(command)` (src/ssh.js lines 120-134): on a `null`
transport the member access throws, rejecting the promise; on an open error
the callback calls `reject(err)`; otherwise the promise settles according
to the stream events.  The first component is the settlement of the
returned promise (`none` = never settles), the second the effects. -/
def rawExec (s : SSHService) (command : List Char) (o : ExecOutcome) :
    Option (Except Err ExecResult) × List Effect :=
  match s.ssh with
  | none => (some (Except.error Err.typeError), [])
  | some id =>
      match o with
      | .openError e => (some (Except.error (Err.openFailed e)), [Effect.channelExec id command])
      | .opened events =>
          ((runStream [] events).map Except.ok, [Effect.channelExec id command])

/-- Embedding of `safeArgs.join(' ')` (src/ssh.js line 144), mirroring
JavaScript `Array.prototype.join` with a single-space separator. -/
def joinSpace : List (List Char) → List Char
  | [] => []
  | [x] => x
  | x :: xs => x ++ spaceChar :: joinSpace xs

/-- The command string built by `exec` (src/ssh.js lines 143-144):
`` `${command} ${safeArgs.join(' ')}` `` where `safeArgs` maps
`escapeShellArg` over `args` when `args` is truthy and is `[]` when `args`
is `null`. -/
def execCommand (command : List Char) (args : Option (List (List Char))) :
    List Char :=
  let safeArgs := match args with
    | some l => l.map escapeShellArg
    | none => []
  command ++ spaceChar :: joinSpace safeArgs

/-- Embedding of `exec(command, args)` (src/ssh.js lines 142-147): build the
safe command string and pass it to `rawExec`, returning its result. -/
def exec (s : SSHService) (command : List Char) (args : Option (List (List Char)))
    (o : ExecOutcome) : Option (Except Err ExecResult) × List Effect :=
  rawExec s (execCommand command args) o

/-- One method call on a session, together with the external events that
drive it.  `rawExec` and `exec` write no field of the session, so they
leave the state unchanged. -/
inductive Op
  | opConnect (h : HandshakeOutcome)
  | opClose (o : CloseOutcome)
  | opRawExec (command : List Char) (o : ExecOutcome)
  | opExec (command : List Char) (args : Option (List (List Char))) (o : ExecOutcome)

/-- The state reached after one method call. -/
def step (s : SSHService) : Op → SSHService
  | .opConnect h => (connect s h).state
  | .opClose o => (close s o).state
  | .opRawExec _ _ => s
  | .opExec _ _ _ => s

/-- The state reached after a sequence of method calls. -/
def run : SSHService → List Op → SSHService
  | s, [] => s
  | s, op :: ops => run (step s op) ops

/-- A session state reachable from construction through some sequence of
connect / exec / rawExec / close calls. -/
def Reachable (s : SSHService) : Prop :=
  ∃ ip port username password ops, run (initService ip port username password) ops = s

theorem connect_missing (s : SSHService) (h : HandshakeOutcome)
    (hm : fieldsMissing s = true) :
    connect s h = { state := s, effects := [Effect.logCritical], thrown := none } := by
  simp [connect, connectTry, hm]

theorem connect_ready (s : SSHService) (hm : fieldsMissing s = false) :
    connect s HandshakeOutcome.ready =
      { state := { s with ssh := some s.nextClientId, nextClientId := s.nextClientId + 1, status := true },
        effects := [Effect.newClient s.nextClientId,
                    Effect.transportConnect s.nextClientId, Effect.logDebug],
        thrown := none } := by
  simp [connect, connectTry, hm]

theorem connect_error (s : SSHService) (e : Nat) (hm : fieldsMissing s = false) :
    connect s (HandshakeOutcome.error e) =
      { state := { s with ssh := some s.nextClientId, nextClientId := s.nextClientId + 1 },
        effects := [Effect.newClient s.nextClientId,
                    Effect.transportConnect s.nextClientId, Effect.logCritical],
        thrown := none } := by
  simp [connect, connectTry, hm]

theorem connect_thrown (s : SSHService) (h : HandshakeOutcome) :
    (connect s h).thrown = none := by
  by_cases hm : fieldsMissing s = true
  · rw [connect_missing s h hm]
  · rw [Bool.not_eq_true] at hm
    cases h with
    | ready => rw [connect_ready s hm]
    | error e => rw [connect_error s e hm]

theorem fieldsMissing_update (s : SSHService) (b : Bool) (o : Option Nat) (n : Nat) :
    fieldsMissing
      { ip := s.ip, port := s.port, username := s.username, password := s.password,
        status := b, ssh := o, nextClientId := n } = fieldsMissing s := rfl

/-- The state invariant maintained by every method of `SSHService`: a
session with a missing connection field is never marked connected, a
connected session holds a transport client, and every held client identity
was drawn from the ghost counter. -/
def Inv (s : SSHService) : Prop :=
  (fieldsMissing s = true → s.status = false) ∧
  (s.status = true → s.ssh ≠ none) ∧
  (∀ k, s.ssh = some k → k < s.nextClientId)

theorem inv_initService (ip : List Char) (port : Nat) (username password : List Char) :
    Inv (initService ip port username password) := by
  refine ⟨fun _ => rfl, ?_, ?_⟩
  · intro hc
    simp [initService] at hc
  · intro k hk
    simp [initService] at hk

theorem inv_step (s : SSHService) (op : Op) (hs : Inv s) : Inv (step s op) := by
  obtain ⟨h1, h2, h3⟩ := hs
  cases op with
  | opConnect h =>
      show Inv (connect s h).state
      by_cases hm : fieldsMissing s = true
      · rw [connect_missing s h hm]
        exact ⟨h1, h2, h3⟩
      · rw [Bool.not_eq_true] at hm
        cases h with
        | ready =>
            rw [connect_ready s hm]
            refine ⟨?_, ?_, ?_⟩
            · intro hmm
              rw [fieldsMissing_update, hm] at hmm
              cases hmm
            · intro _
              simp
            · intro k hk
              simp at hk ⊢
              omega
        | error e =>
            rw [connect_error s e hm]
            refine ⟨?_, ?_, ?_⟩
            · intro hmm
              rw [fieldsMissing_update, hm] at hmm
              cases hmm
            · intro _
              simp
            · intro k hk
              simp at hk ⊢
              omega
  | opClose o =>
      show Inv (close s o).state
      cases hssh : s.ssh with
      | none =>
          simp only [close, hssh]
          exact ⟨h1, h2, h3⟩
      | some id =>
          cases o with
          | endFired =>
              simp only [close, hssh]
              refine ⟨fun _ => rfl, ?_, ?_⟩
              · intro hc
                simp at hc
              · intro k hk
                simp at hk
                exact h3 k (hk ▸ hssh)
          | noEvent =>
              simp only [close, hssh]
              exact ⟨h1, h2, h3⟩
  | opRawExec command o => exact ⟨h1, h2, h3⟩
  | opExec command args o => exact ⟨h1, h2, h3⟩

theorem inv_run (s : SSHService) (ops : List Op) (hs : Inv s) : Inv (run s ops) := by
  induction ops generalizing s with
  | nil => exact hs
  | cons op ops ih => exact ih (step s op) (inv_step s op hs)

theorem inv_of_reachable (s : SSHService) (hr : Reachable s) : Inv s := by
  obtain ⟨ip, port, username, password, ops, hrun⟩ := hr
  exact hrun ▸ inv_run _ ops (inv_initService ip port username password)

theorem joinSpace_eq_intercalate (l : List (List Char)) :
    joinSpace l = List.intercalate [spaceChar] l := by
  induction l with
  | nil => rfl
  | cons x xs ih =>
      cases xs with
      | nil => simp [joinSpace, List.intercalate]
      | cons y ys =>
          simp [joinSpace, List.intercalate, List.intersperse_cons₂] at ih ⊢
          rw [ih]

/-- A concretely constructed session with all four connection fields set. -/
def sessionA : SSHService :=
  initService [Char.ofNat 104] 22 [Char.ofNat 117] [Char.ofNat 112]

/-- The session `sessionA` after a successful `connect()`. -/
def sessionConnected : SSHService :=
  (connect sessionA HandshakeOutcome.ready).state

/-- C3 fails as stated: with `args = null` the command string is the base
command plus one trailing space, not the base command unmodified, because
the template string always inserts one space before the joined
arguments. -/
theorem claim_C3_counterexample :
    execCommand [Char.ofNat 108, Char.ofNat 115] none ≠ [Char.ofNat 108, Char.ofNat 115] ∧
    execCommand [Char.ofNat 108, Char.ofNat 115] none
      = [Char.ofNat 108, Char.ofNat 115, spaceChar] :=
  ⟨by decide, rfl⟩

/-- C3 (amended).  `exec(cmd, args)` passes to `rawExec` the string
`cmd`, one space, and the space-joined individually escaped arguments;
`args = null` and `args = []` both yield the base command plus exactly one
trailing space, and `args = ["a b", "it's"]` yields the base command, a
space, and `'a b' 'it'\''s'`. -/
theorem claim_C3_amended_exec_command (command : List Char)
    (args : Option (List (List Char))) (s : SSHService) (o : ExecOutcome)
    (id : Nat) (hssh : s.ssh = some id) :
    (exec s command args o).2
      = [Effect.channelExec id
          (command ++ spaceChar ::
            List.intercalate [spaceChar] ((args.getD []).map escapeShellArg))] ∧
    execCommand command none = command ++ [spaceChar] ∧
    execCommand command (some []) = command ++ [spaceChar] ∧
    execCommand command
        (some [[Char.ofNat 97, spaceChar, Char.ofNat 98],
               [Char.ofNat 105, Char.ofNat 116, squote, Char.ofNat 115]])
      = command ++ spaceChar :: squote :: Char.ofNat 97 :: spaceChar :: Char.ofNat 98 ::
          squote :: spaceChar :: squote :: Char.ofNat 105 :: Char.ofNat 116 :: squote ::
          bslash :: squote :: squote :: Char.ofNat 115 :: [squote] := by
  refine ⟨?_, rfl, rfl, rfl⟩
  cases args with
  | none => cases o <;> simp [exec, rawExec, hssh, execCommand, joinSpace_eq_intercalate]
  | some l => cases o <;> simp [exec, rawExec, hssh, execCommand, joinSpace_eq_intercalate]

/-- Witness for the amended C3 on a connected session with
`args = ["a b", "it's"]`. -/
theorem claim_C3_amended_witness :
    (exec sessionConnected [Char.ofNat 108, Char.ofNat 115]
        (some [[Char.ofNat 97, spaceChar, Char.ofNat 98],
               [Char.ofNat 105, Char.ofNat 116, squote, Char.ofNat 115]])
        (ExecOutcome.opened [])).2
      = [Effect.channelExec 0
          ([Char.ofNat 108, Char.ofNat 115] ++ spaceChar ::
            List.intercalate [spaceChar]
              (((some [[Char.ofNat 97, spaceChar, Char.ofNat 98],
                       [Char.ofNat 105, Char.ofNat 116, squote, Char.ofNat 115]]).getD
                  []).map escapeShellArg))] :=
  (claim_C3_amended_exec_command [Char.ofNat 108, Char.ofNat 115]
    (some [[Char.ofNat 97, spaceChar, Char.ofNat 98],
           [Char.ofNat 105, Char.ofNat 116, squote, Char.ofNat 115]])
    sessionConnected (ExecOutcome.opened []) 0 rfl).1

/-- C4.  `connect()` never lets an error escape to its caller, whatever the
outcome of validation or of the handshake, and on a reachable session with
a missing field the call completes with the connected flag false. -/
theorem claim_C4_connect_never_throws (s : SSHService) (h : HandshakeOutcome) :
    (connect s h).thrown = none ∧
      (Reachable s → fieldsMissing s = true → (connect s h).state.status = false) := by
  refine ⟨connect_thrown s h, ?_⟩
  intro hr hm
  rw [connect_missing s h hm]
  exact (inv_of_reachable s hr).1 hm

/-- Witness for C4: a freshly constructed session with an empty host. -/
theorem claim_C4_witness :
    (connect (initService [] 22 [Char.ofNat 117] [Char.ofNat 112])
        HandshakeOutcome.ready).thrown = none ∧
    (connect (initService [] 22 [Char.ofNat 117] [Char.ofNat 112])
        HandshakeOutcome.ready).state.status = false :=
  ⟨(claim_C4_connect_never_throws (initService [] 22 [Char.ofNat 117] [Char.ofNat 112])
      HandshakeOutcome.ready).1,
   (claim_C4_connect_never_throws (initService [] 22 [Char.ofNat 117] [Char.ofNat 112])
      HandshakeOutcome.ready).2
     ⟨[], 22, [Char.ofNat 117], [Char.ofNat 112], [], rfl⟩ rfl⟩

/-- C5 fails as stated: the catch block of `connect` never resets
`this.status`, so a session that was already connected stays marked
connected after a failing connect attempt (here a handshake error, as the
critical log entry in the emitted effects shows). -/
theorem claim_C5_counterexample :
    sessionConnected.status = true ∧
    (connect sessionConnected (HandshakeOutcome.error 0)).effects
      = [Effect.newClient 1, Effect.transportConnect 1, Effect.logCritical] ∧
    (connect sessionConnected (HandshakeOutcome.error 0)).state.status = true :=
  ⟨rfl, rfl, rfl⟩

/-- C5 (amended).  A failing `connect()` (missing field or handshake error)
leaves the connected flag exactly as it was before the call; in particular
a session that was not connected remains not connected. -/
theorem claim_C5_amended_status_unchanged (s : SSHService) (h : HandshakeOutcome)
    (hfail : fieldsMissing s = true ∨ ∃ e, h = HandshakeOutcome.error e) :
    (connect s h).state.status = s.status := by
  rcases hfail with hm | ⟨e, rfl⟩
  · rw [connect_missing s h hm]
  · by_cases hm : fieldsMissing s = true
    · rw [connect_missing s _ hm]
    · rw [Bool.not_eq_true] at hm
      rw [connect_error s e hm]

/-- Witness for the amended C5: a handshake error on a connected session. -/
theorem claim_C5_amended_witness :
    (connect sessionConnected (HandshakeOutcome.error 7)).state.status
      = sessionConnected.status :=
  claim_C5_amended_status_unchanged sessionConnected (HandshakeOutcome.error 7)
    (Or.inr ⟨7, rfl⟩)

/-- C6 fails as stated: after a reachable connect attempt whose handshake
errors, the transport handle is non-null (`this.ssh` was assigned before
`test()` and the catch block does not clear it) while the connected flag is
false. -/
theorem claim_C6_counterexample :
    Reachable (connect sessionA (HandshakeOutcome.error 0)).state ∧
    (connect sessionA (HandshakeOutcome.error 0)).state.ssh ≠ none ∧
    (connect sessionA (HandshakeOutcome.error 0)).state.status = false := by
  refine ⟨⟨[Char.ofNat 104], 22, [Char.ofNat 117], [Char.ofNat 112],
           [Op.opConnect (HandshakeOutcome.error 0)], rfl⟩, ?_, rfl⟩
  decide

/-- C6 (amended).  In every reachable state only one direction of the
claimed equivalence holds: when the connected flag is true the transport
handle is non-null. -/
theorem claim_C6_amended_connected_implies_handle (s : SSHService)
    (hr : Reachable s) (hc : s.status = true) : s.ssh ≠ none :=
  (inv_of_reachable s hr).2.1 hc

/-- Witness for the amended C6 on a successfully connected session. -/
theorem claim_C6_amended_witness : sessionConnected.ssh ≠ none :=
  claim_C6_amended_connected_implies_handle sessionConnected
    ⟨[Char.ofNat 104], 22, [Char.ofNat 117], [Char.ofNat 112],
     [Op.opConnect HandshakeOutcome.ready], rfl⟩ rfl

/-- The bytes an event contributes to the accumulated output. -/
def chunkData : StreamEvent → List Char
  | .outData chunk => chunk
  | .errData chunk => chunk
  | .closeEv _ _ => []

/-- Whether an event is the terminal close event. -/
def isClose : StreamEvent → Bool
  | .outData _ => false
  | .errData _ => false
  | .closeEv _ _ => true

/-- The in-arrival-order concatenation of all chunks of a list of events. -/
def chunksData : List StreamEvent → List Char
  | [] => []
  | e :: rest => chunkData e ++ chunksData rest

theorem runStream_append_close (pre post : List StreamEvent) (code : Option Nat)
    (signal : Option (List Char)) (acc : List Char)
    (hpre : ∀ e ∈ pre, isClose e = false) :
    runStream acc (pre ++ StreamEvent.closeEv code signal :: post)
      = some { code := code, signal := signal, data := acc ++ chunksData pre } := by
  induction pre generalizing acc with
  | nil => simp [runStream, chunksData]
  | cons e rest ih =>
      cases e with
      | outData chunk =>
          simp only [List.cons_append, runStream, List.append_eq]
          rw [ih (acc ++ chunk) (fun x hx => hpre x (List.mem_cons_of_mem _ hx))]
          simp [chunksData, chunkData, List.append_assoc]
      | errData chunk =>
          simp only [List.cons_append, runStream, List.append_eq]
          rw [ih (acc ++ chunk) (fun x hx => hpre x (List.mem_cons_of_mem _ hx))]
          simp [chunksData, chunkData, List.append_assoc]
      | closeEv c sg =>
          have hcl := hpre _ (List.mem_cons_self _ _)
          simp [isClose] at hcl

/-- C7.  When the sub-channel opens, `rawExec` settles exactly at the first
close event, resolving with exactly the exit code and signal that event
carried (each independently possibly absent) and with the in-order
concatenation of all stdout and stderr chunks emitted before the close. -/
theorem claim_C7_rawExec_settles_at_close (s : SSHService) (id : Nat)
    (command : List Char) (pre post : List StreamEvent) (code : Option Nat)
    (signal : Option (List Char)) (hssh : s.ssh = some id)
    (hpre : ∀ e ∈ pre, isClose e = false) :
    (rawExec s command
        (ExecOutcome.opened (pre ++ StreamEvent.closeEv code signal :: post))).1
      = some (Except.ok { code := code, signal := signal, data := chunksData pre }) := by
  simp [rawExec, hssh, runStream_append_close pre post code signal [] hpre]

/-- Witness for C7: interleaved stdout and stderr chunks, an exit code with
no signal, and a chunk after the close event that is ignored. -/
theorem claim_C7_witness :
    (rawExec sessionConnected [Char.ofNat 119]
        (ExecOutcome.opened
          [StreamEvent.outData [Char.ofNat 111, Char.ofNat 117],
           StreamEvent.errData [Char.ofNat 101],
           StreamEvent.closeEv (some 0) none,
           StreamEvent.outData [Char.ofNat 122]])).1
      = some (Except.ok { code := some 0, signal := none,
                          data := [Char.ofNat 111, Char.ofNat 117, Char.ofNat 101] }) :=
  claim_C7_rawExec_settles_at_close sessionConnected 0 [Char.ofNat 119]
    [StreamEvent.outData [Char.ofNat 111, Char.ofNat 117],
     StreamEvent.errData [Char.ofNat 101]]
    [StreamEvent.outData [Char.ofNat 122]] (some 0) none rfl (by decide)

/-- C8.  If the transport reports an error when opening the command
sub-channel, `rawExec` (and hence `exec`) rejects with that error. -/
theorem claim_C8_open_error_rejects (s : SSHService) (id : Nat) (command : List Char)
    (args : Option (List (List Char))) (e : Nat) (hssh : s.ssh = some id) :
    (rawExec s command (ExecOutcome.openError e)).1
        = some (Except.error (Err.openFailed e)) ∧
    (exec s command args (ExecOutcome.openError e)).1
        = some (Except.error (Err.openFailed e)) := by
  constructor <;> simp [rawExec, exec, hssh]

/-- Witness for C8 on a connected session. -/
theorem claim_C8_witness :
    (rawExec sessionConnected [Char.ofNat 108, Char.ofNat 115] (ExecOutcome.openError 3)).1
      = some (Except.error (Err.openFailed 3)) :=
  (claim_C8_open_error_rejects sessionConnected 0 [Char.ofNat 108, Char.ofNat 115]
    none 3 rfl).1

/-- C9.  On a session with all four fields set, a `connect()` during which
the transport signals ready sets the connected flag; a subsequent `close()`
stays pending while no end event fires, and on the end event it resolves
true with the connected flag false. -/
theorem claim_C9_lifecycle (s : SSHService) (hf : fieldsMissing s = false) :
    (connect s HandshakeOutcome.ready).state.status = true ∧
    (close (connect s HandshakeOutcome.ready).state CloseOutcome.noEvent).result = none ∧
    (close (connect s HandshakeOutcome.ready).state CloseOutcome.endFired).result
        = some (Except.ok true) ∧
    (close (connect s HandshakeOutcome.ready).state CloseOutcome.endFired).state.status
        = false := by
  rw [connect_ready s hf]
  refine ⟨rfl, ?_, ?_, ?_⟩ <;> simp [close]

/-- Witness for C9 on a concretely constructed session. -/
theorem claim_C9_witness :
    (connect sessionA HandshakeOutcome.ready).state.status = true ∧
    (close (connect sessionA HandshakeOutcome.ready).state CloseOutcome.noEvent).result
        = none ∧
    (close (connect sessionA HandshakeOutcome.ready).state CloseOutcome.endFired).result
        = some (Except.ok true) ∧
    (close (connect sessionA HandshakeOutcome.ready).state CloseOutcome.endFired).state.status
        = false :=
  claim_C9_lifecycle sessionA rfl

/-- C10.  On every reachable session with all four fields set, `connect()`
creates a fresh transport client and stores it in the handle before the
handshake is attempted (the new-client effect precedes the
transport-connect effect), the stored client differs from any previously
held one, and no end call is issued to the old transport. -/
theorem claim_C10_fresh_client (s : SSHService) (h : HandshakeOutcome)
    (hr : Reachable s) (hf : fieldsMissing s = false) :
    (connect s h).state.ssh = some s.nextClientId ∧
    (∃ rest, (connect s h).effects
        = Effect.newClient s.nextClientId :: Effect.transportConnect s.nextClientId :: rest) ∧
    (∀ k, s.ssh = some k → (connect s h).state.ssh ≠ some k) ∧
    (∀ j, Effect.transportEnd j ∉ (connect s h).effects) := by
  have hk := (inv_of_reachable s hr).2.2
  cases h with
  | ready =>
      rw [connect_ready s hf]
      refine ⟨rfl, ⟨[Effect.logDebug], rfl⟩, ?_, ?_⟩
      · intro k hks heq
        simp at heq
        have := hk k hks
        omega
      · intro j
        simp
  | error e =>
      rw [connect_error s e hf]
      refine ⟨rfl, ⟨[Effect.logCritical], rfl⟩, ?_, ?_⟩
      · intro k hks heq
        simp at heq
        have := hk k hks
        omega
      · intro j
        simp

/-- Witness for C10: a second `connect()` on an already connected session
overwrites the handle with a fresh client. -/
theorem claim_C10_witness :
    sessionConnected.status = true ∧
    (connect sessionConnected HandshakeOutcome.ready).state.ssh = some 1 ∧
    (connect sessionConnected HandshakeOutcome.ready).state.ssh ≠ some 0 :=
  ⟨rfl,
   (claim_C10_fresh_client sessionConnected HandshakeOutcome.ready
      ⟨[Char.ofNat 104], 22, [Char.ofNat 117], [Char.ofNat 112],
       [Op.opConnect HandshakeOutcome.ready], rfl⟩ rfl).1,
   (claim_C10_fresh_client sessionConnected HandshakeOutcome.ready
      ⟨[Char.ofNat 104], 22, [Char.ofNat 117], [Char.ofNat 112],
       [Op.opConnect HandshakeOutcome.ready], rfl⟩ rfl).2.2.1 0 rfl⟩

end NodeSSH
